import Mathlib

/-!
Verification of the samsungwam Group Coordinator and Connection Resilience
Engine.  The definitions below are a shallow embedding of
`custom_components/samsungwam/wam_coordinator.py`,
`custom_components/samsungwam/media_player.py` (the `group_members`
property), `custom_components/samsungwam/wam_device.py` and
`custom_components/samsungwam/wam_entity.py`.

Python exceptions are modelled by the `WamError` type; a method that can
raise returns either `Except WamError _` or a pair of the mutated state
and an optional raised error (for methods that mutate `self` in place
before a possible raise).  Logging and `await asyncio.sleep` are dropped
(pure state), but the sleep durations of the reconnect loop are recorded
as events so that timing claims can be stated.
-/

set_option linter.unusedVariables false

namespace SamsungWam

/-- Speaker attributes used by the grouping logic
(`pywam` attribute snapshot fields read in the source).
`master_ip` is `Option` because Python`s attribute can be `None`. -/
structure SpeakerAttr where
  is_master : Bool
  is_slave : Bool
  is_grouped : Bool
  master_ip : Option String
  deriving DecidableEq, Repr

/-- A registered media player: entity id (its key in the coordinator
directory), the speaker ip, the attribute snapshot, and availability. -/
structure Player where
  entity_id : String
  ip : String
  attr : SpeakerAttr
  available : Bool
  deriving DecidableEq, Repr

/-- Errors a coordinator call can raise.  `wamGroupError` is the
integration`s `WamGroupError`; `keyError`, `typeError` and `indexError`
model the corresponding Python built-in exceptions that can escape from
dict lookups, `len(None)` / `x in None`, and `[][0]`. -/
inductive WamError where
  | wamGroupError
  | keyError
  | typeError
  | indexError
  deriving DecidableEq, Repr

/-- Coordinator state: `SamsungWamCoordinator.__init__` fields.
`groupingCallLaterCancel` is `true` when `_grouping_call_later_cancel`
holds a cancel handle (a settle timer is armed); `timerArms` counts how
many times `async_call_later` has been invoked (number of armed timers),
so that claims about arming a second timer can be stated. -/
structure CoordState where
  mediaPlayers : List Player
  groupingMaster : Option String
  groupingSpeakersToAdd : List String
  groupingSpeakersToRemove : List String
  groupingCallLaterCancel : Bool
  groupingInProgress : Bool
  timerArms : Nat
  deriving DecidableEq, Repr

/-- `SamsungWamCoordinator.get_media_player` as a partial lookup:
the Python dict access raises `KeyError` when absent, here `none`. -/
def getMediaPlayer (players : List Player) (entityId : String) : Option Player :=
  players.find? (fun p => p.entity_id == entityId)

/-- `SamsungWamCoordinator.get_all_available_media_players`: all stored
players that are online, in directory (insertion) order. -/
def getAllAvailableMediaPlayers (players : List Player) : List Player :=
  players.filter (fun p => p.available)

/-- `SamsungWamPlayer.group_members` (media_player.py).  For a master:
itself first, then every other available player whose `master_ip` equals
the master`s ip.  For a slave: scan available players, `insert(0, …)` the
one whose ip equals our `master_ip`, append co-slaves with the same
`master_ip`.  Otherwise `None`. -/
def groupMembers (players : List Player) (self : Player) : Option (List String) :=
  if self.attr.is_master then
    some (self.entity_id ::
      ((getAllAvailableMediaPlayers players).filterMap (fun p =>
        if p.entity_id == self.entity_id then none
        else if p.attr.master_ip == some self.ip then some p.entity_id
        else none)))
  else if self.attr.is_slave then
    some ((getAllAvailableMediaPlayers players).foldl (fun acc p =>
      if (some p.ip) == self.attr.master_ip then p.entity_id :: acc
      else if p.attr.master_ip == self.attr.master_ip then acc ++ [p.entity_id]
      else acc) [])
  else
    none

/-- The slave loop of `SamsungWamCoordinator._validate_master`:
every resolved slave must report the master`s ip as its `master_ip`. -/
def validateMasterSlaves (players : List Player) (masterIp : String) :
    List String → Except WamError Unit
  | [] => Except.ok ()
  | s :: rest =>
    match getMediaPlayer players s with
    | none => Except.error WamError.keyError
    | some speakerSlave =>
      if speakerSlave.attr.master_ip ≠ some masterIp then
        Except.error WamError.wamGroupError
      else validateMasterSlaves players masterIp rest

/-- `SamsungWamCoordinator._validate_master`.  The source has two
sequential tests `if group_members is None: …` and
`if group_members is not None: …`; they are mutually exclusive, so they
appear here as one `match`.  `group_members[0]` on an empty list would
raise `IndexError`. -/
def validateMaster (players : List Player) (mediaPlayerId : String) :
    Except WamError Unit :=
  match getMediaPlayer players mediaPlayerId with
  | none => Except.error WamError.keyError
  | some player =>
    if player.attr.is_slave then Except.error WamError.wamGroupError
    else
      match groupMembers players player with
      | none =>
        if player.attr.is_grouped then Except.error WamError.wamGroupError
        else Except.ok ()
      | some [] => Except.error WamError.indexError
      | some (first :: rest) =>
        if player.entity_id ≠ first then Except.error WamError.wamGroupError
        else if ¬ player.attr.is_master then Except.error WamError.wamGroupError
        else validateMasterSlaves players player.ip rest

/-- One iteration of the loop in
`SamsungWamCoordinator._validate_media_players_to_add`.  Note the
`except KeyError: raise WamGroupError` around the member lookup, and
that the final is-slave-of-another-master test runs after the
group-membership test whichever way the latter branches. -/
def validateOneToAdd (players : List Player) (masterPlayer : Player)
    (mediaPlayerId : String) : Except WamError Unit :=
  match getMediaPlayer players mediaPlayerId with
  | none => Except.error WamError.wamGroupError
  | some player =>
    if ¬ player.available then Except.error WamError.wamGroupError
    else if player.attr.is_master then Except.error WamError.wamGroupError
    else
      let slaveCheck : Except WamError Unit :=
        if player.attr.is_slave ∧ player.attr.master_ip ≠ some masterPlayer.ip
        then Except.error WamError.wamGroupError
        else Except.ok ()
      match groupMembers players player with
      | some _ =>
        match groupMembers players masterPlayer with
        | none => Except.error WamError.wamGroupError
        | some ml =>
          if ¬ ml.contains mediaPlayerId then Except.error WamError.wamGroupError
          else slaveCheck
      | none => slaveCheck

/-- The member loop of `_validate_media_players_to_add`. -/
def validateAddList (players : List Player) (masterPlayer : Player) :
    List String → Except WamError Unit
  | [] => Except.ok ()
  | x :: rest =>
    match validateOneToAdd players masterPlayer x with
    | Except.error e => Except.error e
    | Except.ok _ => validateAddList players masterPlayer rest

/-- `SamsungWamCoordinator._validate_media_players_to_add`. -/
def validateMediaPlayersToAdd (players : List Player) (masterId : String)
    (mediaPlayerIds : List String) : Except WamError Unit :=
  match getMediaPlayer players masterId with
  | none => Except.error WamError.keyError
  | some masterPlayer => validateAddList players masterPlayer mediaPlayerIds

/-- `SamsungWamCoordinator._validate_media_player_to_remove`.
`len(None)` and `x not in None` raise `TypeError` in Python, which we
model faithfully. -/
def validateMediaPlayerToRemove (players : List Player) (masterId : String)
    (mediaPlayerId : String) : Except WamError Unit :=
  match getMediaPlayer players masterId with
  | none => Except.error WamError.keyError
  | some masterPlayer =>
    match getMediaPlayer players mediaPlayerId with
    | none => Except.error WamError.keyError
    | some player =>
      if ¬ player.attr.is_slave then Except.error WamError.wamGroupError
      else
        match groupMembers players player with
        | none => Except.error WamError.typeError
        | some l =>
          if l.length == 0 then Except.error WamError.wamGroupError
          else
            match groupMembers players masterPlayer with
            | none => Except.error WamError.typeError
            | some ml =>
              if ¬ ml.contains mediaPlayerId then
                Except.error WamError.wamGroupError
              else Except.ok ()

/-- Tail of `add_speakers_to_group` / `remove_speaker_from_group` after
the master bookkeeping: the pending list has just been extended (already
reflected in `st`); if no settle timer is armed yet, look the master up
again and arm one (`async_call_later(master.hass, 1, …)`). -/
def armSettleTimer (st : CoordState) (masterId : String) :
    CoordState × Option WamError :=
  if st.groupingCallLaterCancel then (st, none)
  else
    match getMediaPlayer st.mediaPlayers masterId with
    | none => (st, some WamError.keyError)
    | some _ =>
      ({ st with groupingCallLaterCancel := true,
                 timerArms := st.timerArms + 1 }, none)

/-- `SamsungWamCoordinator.add_speakers_to_group`.  Returns the state as
mutated so far, plus the raised error if any.  When an operation is in
progress the method logs and returns silently. -/
def addSpeakersToGroup (st : CoordState) (masterId : String)
    (mediaPlayers : List String) : CoordState × Option WamError :=
  if st.groupingInProgress then (st, none)
  else
    match validateMaster st.mediaPlayers masterId with
    | Except.error e => (st, some e)
    | Except.ok _ =>
      match validateMediaPlayersToAdd st.mediaPlayers masterId mediaPlayers with
      | Except.error e => (st, some e)
      | Except.ok _ =>
        match st.groupingMaster with
        | none =>
          let st1 := { st with groupingMaster := some masterId }
          armSettleTimer
            { st1 with groupingSpeakersToAdd :=
                st1.groupingSpeakersToAdd ++ mediaPlayers } masterId
        | some m =>
          if m ≠ masterId then (st, some WamError.wamGroupError)
          else
            armSettleTimer
              { st with groupingSpeakersToAdd :=
                  st.groupingSpeakersToAdd ++ mediaPlayers } masterId

/-- `SamsungWamCoordinator.remove_speaker_from_group`. -/
def removeSpeakerFromGroup (st : CoordState) (masterId : String)
    (mediaPlayer : String) : CoordState × Option WamError :=
  if st.groupingInProgress then (st, none)
  else
    match validateMaster st.mediaPlayers masterId with
    | Except.error e => (st, some e)
    | Except.ok _ =>
      match validateMediaPlayerToRemove st.mediaPlayers masterId mediaPlayer with
      | Except.error e => (st, some e)
      | Except.ok _ =>
        match st.groupingMaster with
        | none =>
          let st1 := { st with groupingMaster := some masterId }
          armSettleTimer
            { st1 with groupingSpeakersToRemove :=
                st1.groupingSpeakersToRemove ++ [mediaPlayer] } masterId
        | some m =>
          if m ≠ masterId then (st, some WamError.wamGroupError)
          else
            armSettleTimer
              { st with groupingSpeakersToRemove :=
                  st.groupingSpeakersToRemove ++ [mediaPlayer] } masterId

/-- The one physical grouping call issued by `_group_wam_speakers`:
`master_speaker.group(speakers_before, speakers_after)`.  `slavesAfter`
is a Python `set`, hence a `Finset`. -/
structure GroupCall where
  masterId : String
  slavesBefore : List String
  slavesAfter : Finset String
  deriving DecidableEq

/-- The list comprehension `[self.get_media_player(s).speaker for s in l]`:
raises `KeyError` on the first unregistered id. -/
def lookupAll (players : List Player) : List String → Except WamError Unit
  | [] => Except.ok ()
  | x :: rest =>
    match getMediaPlayer players x with
    | none => Except.error WamError.keyError
    | some _ => lookupAll players rest

/-- `SamsungWamCoordinator._group_wam_speakers`: computes
`slaves_before` from the master`s resolved members (dropping the master
itself) and `slaves_after = (set(before) − set(toRemove)) ∪ set(toAdd)`,
looks the members up, and issues the single physical call. -/
def groupWamSpeakers (st : CoordState) : Except WamError GroupCall :=
  match st.groupingMaster with
  | none => Except.error WamError.keyError
  | some masterId =>
    match getMediaPlayer st.mediaPlayers masterId with
    | none => Except.error WamError.keyError
    | some masterPlayer =>
      let slavesBefore := match groupMembers st.mediaPlayers masterPlayer with
        | some l => l.drop 1
        | none => []
      let slavesAfter :=
        (slavesBefore.toFinset \ st.groupingSpeakersToRemove.toFinset)
          ∪ st.groupingSpeakersToAdd.toFinset
      match lookupAll st.mediaPlayers slavesBefore with
      | Except.error e => Except.error e
      | Except.ok _ =>
        if ∀ x ∈ slavesAfter, (getMediaPlayer st.mediaPlayers x).isSome then
          Except.ok ⟨masterId, slavesBefore, slavesAfter⟩
        else Except.error WamError.keyError

/-- The `finally:` block of `async_group_media_players`. -/
def resetGrouping (st : CoordState) : CoordState :=
  { st with groupingMaster := none,
            groupingSpeakersToAdd := [],
            groupingSpeakersToRemove := [],
            groupingCallLaterCancel := false,
            groupingInProgress := false }

/-- `SamsungWamCoordinator.async_group_media_players` (the settle-timer
callback).  Returns the final state, the list of physical group calls
issued, and the error re-raised to the caller, if any.  The `finally:`
block resets the pending state in every case. -/
def asyncGroupMediaPlayers (st : CoordState) :
    CoordState × List GroupCall × Option WamError :=
  if st.groupingInProgress then (st, [], none)
  else
    let st1 := { st with groupingInProgress := true }
    match groupWamSpeakers st1 with
    | Except.ok call => (resetGrouping st1, [call], none)
    | Except.error e => (resetGrouping st1, [], some e)

/-- Removal of the first directory entry with the given key, mirroring
`del self._media_players[entity_id]` (dict keys are unique). -/
def eraseFirstPlayer : List Player → String → List Player
  | [], _ => []
  | p :: rest, entityId =>
    if p.entity_id == entityId then rest
    else p :: eraseFirstPlayer rest entityId

/-- `SamsungWamCoordinator.delete_media_player`: deletes the entry; a
`KeyError` for an unknown id is caught and only logged. -/
def deleteMediaPlayer (st : CoordState) (entityId : String) : CoordState :=
  { st with mediaPlayers := eraseFirstPlayer st.mediaPlayers entityId }

/-- `wam_device.py`: `wait_time = 2 ** (min(reconnection_attempts, 6)) * 10`. -/
def reconnectWaitTime (reconnectionAttempts : Nat) : Nat :=
  2 ^ (min reconnectionAttempts 6) * 10

/-- The device state relevant to the resilience engine:
`SamsungWamDevice._reconnecting`, `speaker.is_connected`, and the
registered subscriber callbacks (`_update_callbacks`, a Python set,
modelled as a duplicate-free list of callback ids). -/
structure DeviceState where
  reconnecting : Bool
  connected : Bool
  updateCallbacks : List String
  deriving DecidableEq, Repr

/-- Observable events of the reconnect loop: a backoff sleep of a given
duration, or a `force_update=True` notification delivered to one
subscriber callback. -/
inductive DeviceEvent where
  | sleep : Nat → DeviceEvent
  | forceUpdate : String → DeviceEvent
  deriving DecidableEq, Repr

/-- `SamsungWamDevice.update_all_entity_states`: calls every registered
callback once with `force_update=True`. -/
def updateAllEntityStates (dev : DeviceState) : List DeviceEvent :=
  dev.updateCallbacks.map DeviceEvent.forceUpdate

/-- The `while True` body of `_reconnect_until_connected`.  `script`
gives, for each attempt, whether `self.is_connected` holds after the
`disconnect/connect/update` attempt (all exceptions suppressed).  On
success the loop notifies all subscribers and clears `_reconnecting`;
on failure it increments the attempt counter and sleeps
`reconnectWaitTime attempts`.  `none` means the script ended with the
loop still running (it never terminates by itself). -/
def reconnectLoop (dev : DeviceState) (attempts : Nat) :
    List Bool → Option (DeviceState × List DeviceEvent)
  | [] => none
  | connectedNow :: rest =>
    if connectedNow then
      some ({ dev with connected := true, reconnecting := false },
            updateAllEntityStates dev)
    else
      match reconnectLoop dev (attempts + 1) rest with
      | none => none
      | some (d, evs) =>
        some (d, DeviceEvent.sleep (reconnectWaitTime (attempts + 1)) :: evs)

/-- `SamsungWamDevice._reconnect_until_connected`: sets `_reconnecting`
and runs the loop with the attempt counter starting at 0. -/
def reconnectUntilConnected (dev : DeviceState) (script : List Bool) :
    Option (DeviceState × List DeviceEvent) :=
  reconnectLoop { dev with reconnecting := true } 0 script

/-- Outcome of an awaited speaker command inside the
`async_check_connection` decorator (wam_entity.py). -/
inductive CommandOutcome where
  | ok
  | connectionError
  | apiCallTimeoutError
  | otherError
  deriving DecidableEq, Repr

/-- Observable result of one decorated call: whether the wrapped
response was returned, whether `device.check_connection()` was awaited,
and whether an exception escaped to the caller. -/
structure WrappedCallResult where
  returnedResponse : Bool
  checkedConnection : Bool
  raisedToCaller : Bool
  deriving DecidableEq, Repr

/-- `async_check_connection(timeout)` (wam_entity.py): `ConnectionError`
always triggers the connection check; `ApiCallTimeoutError` triggers it
iff the decorator was constructed with `timeout=True`; every other
exception is logged; no exception is re-raised. -/
def asyncCheckConnection (timeout : Bool) (outcome : CommandOutcome) :
    WrappedCallResult :=
  match outcome with
  | CommandOutcome.ok => ⟨true, false, false⟩
  | CommandOutcome.connectionError => ⟨false, true, false⟩
  | CommandOutcome.apiCallTimeoutError => ⟨false, timeout, false⟩
  | CommandOutcome.otherError => ⟨false, false, false⟩

/-! ### Concrete test fixtures

A small directory used to evaluate the claims on concrete inputs:
`exMaster` is master of a group also containing `exSlave1`;
`exFree2` and `exFree3` are ungrouped; `exLoneSlave` is a slave whose
master is not registered. -/

def exMaster : Player := ⟨"m", "ipm", ⟨true, false, true, none⟩, true⟩

def exSlave1 : Player := ⟨"s1", "ips1", ⟨false, true, true, some "ipm"⟩, true⟩

def exFree2 : Player := ⟨"s2", "ips2", ⟨false, false, false, none⟩, true⟩

def exFree3 : Player := ⟨"s3", "ips3", ⟨false, false, false, none⟩, true⟩

def exLoneSlave : Player := ⟨"s", "ips", ⟨false, true, true, some "ipx"⟩, true⟩

/-- Idle coordinator: no pending operation. -/
def exIdleState : CoordState :=
  ⟨[exMaster, exSlave1, exFree2, exFree3], none, [], [], false, false, 0⟩

/-- A pending operation on master `m` (timer armed, not yet fired):
add `s2`, remove `s1`. -/
def exPendingState : CoordState :=
  ⟨[exMaster, exSlave1, exFree2], some "m", ["s2"], ["s1"], true, false, 1⟩

/-- A pending operation whose master is `s2`, used to exercise calls
that name a different master. -/
def exPendingOther : CoordState :=
  ⟨[exMaster, exSlave1, exFree2], some "s2", [], [], true, false, 1⟩

/-- A commit in progress (`_grouping_in_progress` is set). -/
def exBusyState : CoordState :=
  ⟨[exMaster, exSlave1, exFree2], some "m", ["s2"], [], true, true, 1⟩

/-- Directory holding only `exLoneSlave`. -/
def exLoneState : CoordState :=
  ⟨[exLoneSlave], none, [], [], false, false, 0⟩

/-- A device with two registered entity callbacks. -/
def exDevice : DeviceState := ⟨false, false, ["e1", "e2"]⟩

/-! ### Basic lemmas about the directory and `group_members` -/

theorem getMediaPlayer_entityId {players : List Player} {m : String} {p : Player}
    (h : getMediaPlayer players m = some p) : p.entity_id = m := by
  have hfind := List.find?_some h
  exact beq_iff_eq.mp hfind

theorem getMediaPlayer_isSome_of_mem {players : List Player} {p : Player}
    (h : p ∈ players) : (getMediaPlayer players p.entity_id).isSome := by
  unfold getMediaPlayer
  exact List.find?_isSome.mpr ⟨p, h, beq_self_eq_true _⟩

theorem groupMembers_eq_none_iff (players : List Player) (p : Player) :
    groupMembers players p = none ↔
      (p.attr.is_master = false ∧ p.attr.is_slave = false) := by
  unfold groupMembers
  by_cases hm : p.attr.is_master <;> by_cases hs : p.attr.is_slave <;>
    simp [hm, hs]

theorem groupMembers_master {players : List Player} {p : Player}
    (h : p.attr.is_master = true) :
    groupMembers players p = some (p.entity_id ::
      ((getAllAvailableMediaPlayers players).filterMap (fun q =>
        if q.entity_id == p.entity_id then none
        else if q.attr.master_ip == some p.ip then some q.entity_id
        else none))) := by
  simp [groupMembers, h]

theorem groupMembers_slave {players : List Player} {p : Player}
    (hm : p.attr.is_master = false) (hs : p.attr.is_slave = true) :
    groupMembers players p = some ((getAllAvailableMediaPlayers players).foldl
      (fun acc q =>
        if (some q.ip) == p.attr.master_ip then q.entity_id :: acc
        else if q.attr.master_ip == p.attr.master_ip then acc ++ [q.entity_id]
        else acc) []) := by
  simp [groupMembers, hm, hs]

/-- Invariant preservation over the slave-branch fold of
`group_members`: every element of the accumulated list either was in
the initial accumulator or is the entity id of a scanned player. -/
theorem slaveFold_mem (mip : Option String) (P : String → Prop) :
    ∀ (l : List Player) (acc : List String),
      (∀ x ∈ acc, P x) → (∀ q ∈ l, P q.entity_id) →
      ∀ x ∈ l.foldl (fun acc q =>
          if (some q.ip) == mip then q.entity_id :: acc
          else if q.attr.master_ip == mip then acc ++ [q.entity_id]
          else acc) acc, P x := by
  intro l
  induction l with
  | nil =>
    intro acc hacc _ x hx
    exact hacc x hx
  | cons q rest ih =>
    intro acc hacc hl x hx
    simp only [List.foldl_cons] at hx
    have hq : P q.entity_id := hl q (List.mem_cons_self q rest)
    have hrest : ∀ r ∈ rest, P r.entity_id :=
      fun r hr => hl r (List.mem_cons_of_mem q hr)
    by_cases h1 : ((some q.ip) == mip) = true
    · rw [if_pos h1] at hx
      refine ih (q.entity_id :: acc) ?_ hrest x hx
      intro y hy
      rcases List.mem_cons.mp hy with hy | hy
      · exact hy ▸ hq
      · exact hacc y hy
    · rw [if_neg h1] at hx
      by_cases h2 : (q.attr.master_ip == mip) = true
      · rw [if_pos h2] at hx
        refine ih (acc ++ [q.entity_id]) ?_ hrest x hx
        intro y hy
        rcases List.mem_append.mp hy with hy | hy
        · exact hacc y hy
        · rcases List.mem_singleton.mp hy with hy
          exact hy ▸ hq
      · rw [if_neg h2] at hx
        exact ih acc hacc hrest x hx

/-- Every id in a resolved member list is either the queried player`s
own id or the id of a registered player. -/
theorem groupMembers_mem_registered {players : List Player} {p : Player}
    {l : List String} (h : groupMembers players p = some l) :
    ∀ x ∈ l, x = p.entity_id ∨ (getMediaPlayer players x).isSome := by
  intro x hx
  by_cases hm : p.attr.is_master
  · rw [groupMembers_master hm] at h
    injection h with h
    rw [← h] at hx
    rcases List.mem_cons.mp hx with hx | hx
    · exact Or.inl hx
    · right
      obtain ⟨q, hq, hfq⟩ := List.mem_filterMap.mp hx
      have hqmem : q ∈ players := (List.mem_filter.mp hq).1
      by_cases h1 : (q.entity_id == p.entity_id) = true
      · rw [if_pos h1] at hfq; cases hfq
      · rw [if_neg h1] at hfq
        by_cases h2 : (q.attr.master_ip == some p.ip) = true
        · rw [if_pos h2] at hfq
          injection hfq with hfq
          rw [← hfq]
          exact getMediaPlayer_isSome_of_mem hqmem
        · rw [if_neg h2] at hfq; cases hfq
  · by_cases hs : p.attr.is_slave
    · rw [groupMembers_slave (Bool.eq_false_iff.mpr hm) hs] at h
      injection h with h
      rw [← h] at hx
      right
      refine slaveFold_mem p.attr.master_ip
        (fun y => (getMediaPlayer players y).isSome)
        (getAllAvailableMediaPlayers players) [] (by simp) ?_ x hx
      intro q hq
      exact getMediaPlayer_isSome_of_mem (List.mem_filter.mp hq).1
    · rw [(groupMembers_eq_none_iff players p).mpr
        ⟨Bool.eq_false_iff.mpr hm, Bool.eq_false_iff.mpr hs⟩] at h
      cases h

theorem lookupAll_ok {players : List Player} {l : List String}
    (h : ∀ x ∈ l, (getMediaPlayer players x).isSome) :
    lookupAll players l = Except.ok () := by
  induction l with
  | nil => rfl
  | cons x rest ih =>
    have hx := h x (List.mem_cons_self x rest)
    unfold lookupAll
    match hgx : getMediaPlayer players x with
    | none => rw [hgx] at hx; cases hx
    | some p => exact ih (fun y hy => h y (List.mem_cons_of_mem x hy))

/-! ### Inversion lemmas for the validators -/

theorem groupMembers_isSome_of_slave {players : List Player} {p : Player}
    (hs : p.attr.is_slave = true) : (groupMembers players p).isSome := by
  rw [Option.isSome_iff_ne_none]
  intro hnone
  have := ((groupMembers_eq_none_iff players p).mp hnone).2
  rw [hs] at this
  cases this

theorem groupMembers_slave_of_nil {players : List Player} {p : Player}
    (h : groupMembers players p = some []) : p.attr.is_slave = true := by
  by_cases hm : p.attr.is_master
  · rw [groupMembers_master hm] at h
    injection h with h
    cases h
  · by_cases hs : p.attr.is_slave
    · exact hs
    · rw [(groupMembers_eq_none_iff players p).mpr
        ⟨Bool.eq_false_iff.mpr hm, Bool.eq_false_iff.mpr hs⟩] at h
      cases h

theorem validateMasterSlaves_ok_or_group {players : List Player} {ip : String}
    {l : List String} (h : ∀ x ∈ l, (getMediaPlayer players x).isSome) :
    validateMasterSlaves players ip l = Except.ok () ∨
      validateMasterSlaves players ip l = Except.error WamError.wamGroupError := by
  induction l with
  | nil => exact Or.inl rfl
  | cons x rest ih =>
    have hx := h x (List.mem_cons_self x rest)
    unfold validateMasterSlaves
    match hgx : getMediaPlayer players x with
    | none => rw [hgx] at hx; cases hx
    | some sp =>
      dsimp only
      by_cases hip : sp.attr.master_ip ≠ some ip
      · rw [if_pos hip]
        exact Or.inr rfl
      · rw [if_neg hip]
        exact ih (fun y hy => h y (List.mem_cons_of_mem x hy))

theorem validateMaster_ok_or_group {players : List Player} {m : String}
    (h : (getMediaPlayer players m).isSome) :
    validateMaster players m = Except.ok () ∨
      validateMaster players m = Except.error WamError.wamGroupError := by
  unfold validateMaster
  match hgm : getMediaPlayer players m with
  | none => rw [hgm] at h; cases h
  | some player =>
    dsimp only
    by_cases hs : player.attr.is_slave
    · rw [if_pos hs]; exact Or.inr rfl
    · rw [if_neg hs]
      match hmem : groupMembers players player with
      | none =>
        dsimp only
        by_cases hg : player.attr.is_grouped
        · rw [if_pos hg]; exact Or.inr rfl
        · rw [if_neg hg]; exact Or.inl rfl
      | some [] =>
        have := groupMembers_slave_of_nil hmem
        rw [this] at hs
        exact absurd rfl hs
      | some (first :: rest) =>
        dsimp only
        by_cases hfst : player.entity_id ≠ first
        · rw [if_pos hfst]; exact Or.inr rfl
        · rw [if_neg hfst]
          by_cases hmst : ¬ player.attr.is_master
          · rw [if_pos hmst]; exact Or.inr rfl
          · rw [if_neg hmst]
            refine validateMasterSlaves_ok_or_group ?_
            intro x hx
            have hx' : x ∈ first :: rest := List.mem_cons_of_mem first hx
            rcases groupMembers_mem_registered hmem x hx' with hxe | hxr
            · rw [hxe, getMediaPlayer_entityId hgm, hgm]; rfl
            · exact hxr

theorem validateMaster_ok_shape {players : List Player} {m : String}
    (h : validateMaster players m = Except.ok ()) :
    ∃ p, getMediaPlayer players m = some p ∧ p.attr.is_slave = false ∧
      (groupMembers players p = none ∨ ∃ t, groupMembers players p = some (m :: t)) := by
  unfold validateMaster at h
  match hgm : getMediaPlayer players m with
  | none => rw [hgm] at h; simp at h
  | some player =>
    rw [hgm] at h
    dsimp only at h
    refine ⟨player, rfl, ?_, ?_⟩
    · by_cases hs : player.attr.is_slave
      · rw [if_pos hs] at h; simp at h
      · exact Bool.eq_false_iff.mpr hs
    · by_cases hs : player.attr.is_slave
      · rw [if_pos hs] at h; simp at h
      · rw [if_neg hs] at h
        match hmem : groupMembers players player with
        | none => exact Or.inl rfl
        | some [] => rw [hmem] at h; simp at h
        | some (first :: rest) =>
          rw [hmem] at h
          dsimp only at h
          by_cases hfst : player.entity_id ≠ first
          · rw [if_pos hfst] at h; simp at h
          · push_neg at hfst
            have hfm : first = m := by
              rw [← hfst]; exact getMediaPlayer_entityId hgm
            exact Or.inr ⟨rest, by rw [hfm]⟩

theorem validateOneToAdd_ok_or_group (players : List Player) (mp : Player)
    (x : String) :
    validateOneToAdd players mp x = Except.ok () ∨
      validateOneToAdd players mp x = Except.error WamError.wamGroupError := by
  unfold validateOneToAdd
  match hgx : getMediaPlayer players x with
  | none => exact Or.inr rfl
  | some player =>
    dsimp only
    by_cases hav : ¬ player.available
    · rw [if_pos hav]; exact Or.inr rfl
    · rw [if_neg hav]
      by_cases hmst : player.attr.is_master
      · rw [if_pos hmst]; exact Or.inr rfl
      · rw [if_neg hmst]
        have hslv : (if player.attr.is_slave ∧
            player.attr.master_ip ≠ some mp.ip
            then Except.error WamError.wamGroupError
            else (Except.ok () : Except WamError Unit)) = Except.ok () ∨
            (if player.attr.is_slave ∧ player.attr.master_ip ≠ some mp.ip
            then Except.error WamError.wamGroupError
            else (Except.ok () : Except WamError Unit)) =
              Except.error WamError.wamGroupError := by
          by_cases hc : player.attr.is_slave ∧
              player.attr.master_ip ≠ some mp.ip
          · rw [if_pos hc]; exact Or.inr rfl
          · rw [if_neg hc]; exact Or.inl rfl
        match hmem : groupMembers players player with
        | none => exact hslv
        | some l =>
          dsimp only
          match hmm : groupMembers players mp with
          | none => exact Or.inr rfl
          | some ml =>
            dsimp only
            by_cases hct : ¬ ml.contains x
            · rw [if_pos hct]; exact Or.inr rfl
            · rw [if_neg hct]; exact hslv

theorem validateOneToAdd_ok_isSome {players : List Player} {mp : Player}
    {x : String} (h : validateOneToAdd players mp x = Except.ok ()) :
    (getMediaPlayer players x).isSome := by
  unfold validateOneToAdd at h
  match hgx : getMediaPlayer players x with
  | none => rw [hgx] at h; simp at h
  | some player => exact rfl

theorem validateOneToAdd_master_err {players : List Player} {mp : Player}
    {x : String} {px : Player} (hgx : getMediaPlayer players x = some px)
    (hmst : px.attr.is_master = true) :
    validateOneToAdd players mp x = Except.error WamError.wamGroupError := by
  unfold validateOneToAdd
  rw [hgx]
  dsimp only
  by_cases hav : ¬ px.available
  · rw [if_pos hav]
  · rw [if_neg hav, if_pos hmst]

theorem validateAddList_ok_or_group (players : List Player) (mp : Player)
    (l : List String) :
    validateAddList players mp l = Except.ok () ∨
      validateAddList players mp l = Except.error WamError.wamGroupError := by
  induction l with
  | nil => exact Or.inl rfl
  | cons x rest ih =>
    unfold validateAddList
    rcases validateOneToAdd_ok_or_group players mp x with hx | hx
    · rw [hx]; exact ih
    · rw [hx]; exact Or.inr rfl

theorem validateAddList_ok_mem {players : List Player} {mp : Player}
    {l : List String} (h : validateAddList players mp l = Except.ok ()) :
    ∀ x ∈ l, (getMediaPlayer players x).isSome := by
  induction l with
  | nil => intro x hx; cases hx
  | cons y rest ih =>
    intro x hx
    unfold validateAddList at h
    match hy : validateOneToAdd players mp y with
    | Except.error e => rw [hy] at h; simp at h
    | Except.ok _ =>
      rw [hy] at h
      dsimp only at h
      rcases List.mem_cons.mp hx with hx | hx
      · rw [hx]; exact validateOneToAdd_ok_isSome hy
      · exact ih h x hx

theorem validateAddList_master_err {players : List Player} {mp : Player}
    {l : List String} {x : String} {px : Player} (hx : x ∈ l)
    (hgx : getMediaPlayer players x = some px) (hmst : px.attr.is_master = true) :
    validateAddList players mp l = Except.error WamError.wamGroupError := by
  induction l with
  | nil => cases hx
  | cons y rest ih =>
    unfold validateAddList
    rcases List.mem_cons.mp hx with hxy | hxr
    · rw [← hxy, validateOneToAdd_master_err hgx hmst]
    · rcases validateOneToAdd_ok_or_group players mp y with hy | hy
      · rw [hy]; exact ih hxr
      · rw [hy]

theorem validateRemove_ok_or_group {players : List Player} {masterId mpId : String}
    {masterPlayer : Player}
    (hgm : getMediaPlayer players masterId = some masterPlayer)
    (hgp : (getMediaPlayer players mpId).isSome)
    (hmm : (groupMembers players masterPlayer).isSome) :
    validateMediaPlayerToRemove players masterId mpId = Except.ok () ∨
      validateMediaPlayerToRemove players masterId mpId =
        Except.error WamError.wamGroupError := by
  unfold validateMediaPlayerToRemove
  rw [hgm]
  dsimp only
  match hgx : getMediaPlayer players mpId with
  | none => rw [hgx] at hgp; cases hgp
  | some player =>
    dsimp only
    by_cases hs : ¬ player.attr.is_slave
    · rw [if_pos hs]; exact Or.inr rfl
    · rw [if_neg hs]
      have hs' : player.attr.is_slave = true := by
        by_cases hb : player.attr.is_slave
        · exact hb
        · exact absurd hb hs
      have hsome : (groupMembers players player).isSome :=
        groupMembers_isSome_of_slave hs'
      match hmem : groupMembers players player with
      | none => rw [hmem] at hsome; cases hsome
      | some l =>
        dsimp only
        by_cases hlen : (l.length == 0) = true
        · rw [if_pos hlen]; exact Or.inr rfl
        · rw [if_neg hlen]
          match hmm2 : groupMembers players masterPlayer with
          | none => rw [hmm2] at hmm; cases hmm
          | some ml =>
            dsimp only
            by_cases hct : ¬ ml.contains mpId
            · rw [if_pos hct]; exact Or.inr rfl
            · rw [if_neg hct]; exact Or.inl rfl

/-! ### Behaviour of the request methods and the commit phase -/

theorem add_ok_validations {st st' : CoordState} {masterId : String}
    {ids : List String} (hip : st.groupingInProgress = false)
    (h : addSpeakersToGroup st masterId ids = (st', none)) :
    validateMaster st.mediaPlayers masterId = Except.ok () ∧
      validateMediaPlayersToAdd st.mediaPlayers masterId ids = Except.ok () := by
  unfold addSpeakersToGroup at h
  rw [hip] at h
  simp only [Bool.false_eq_true, if_false] at h
  cases hvm : validateMaster st.mediaPlayers masterId with
  | error e =>
    rw [hvm] at h
    dsimp only at h
    exact absurd (congrArg Prod.snd h) (by simp)
  | ok u =>
    rw [hvm] at h
    dsimp only at h
    cases hva : validateMediaPlayersToAdd st.mediaPlayers masterId ids with
    | error e =>
      rw [hva] at h
      dsimp only at h
      exact absurd (congrArg Prod.snd h) (by simp)
    | ok v => exact ⟨rfl, rfl⟩

/-- A valid first request on an idle coordinator: records the master,
extends the pending add list, arms the settle timer. -/
theorem add_first {st : CoordState} {masterId : String} {ids : List String}
    (hip : st.groupingInProgress = false)
    (hgm : st.groupingMaster = none)
    (ht : st.groupingCallLaterCancel = false)
    (hvm : validateMaster st.mediaPlayers masterId = Except.ok ())
    (hva : validateMediaPlayersToAdd st.mediaPlayers masterId ids = Except.ok ()) :
    addSpeakersToGroup st masterId ids =
      ({ st with groupingMaster := some masterId,
                 groupingSpeakersToAdd := st.groupingSpeakersToAdd ++ ids,
                 groupingCallLaterCancel := true,
                 timerArms := st.timerArms + 1 }, none) := by
  obtain ⟨p, hp, -, -⟩ := validateMaster_ok_shape hvm
  unfold addSpeakersToGroup
  rw [hip]
  simp only [Bool.false_eq_true, if_false]
  rw [hvm, hva]
  dsimp only
  rw [hgm]
  dsimp only
  unfold armSettleTimer
  dsimp only
  rw [ht]
  simp only [Bool.false_eq_true, if_false]
  rw [hp]

/-- A valid follow-up request with the same master while the settle
timer is armed: only extends the pending add list. -/
theorem add_second {st : CoordState} {masterId : String} {ids : List String}
    (hip : st.groupingInProgress = false)
    (hgm : st.groupingMaster = some masterId)
    (ht : st.groupingCallLaterCancel = true)
    (hvm : validateMaster st.mediaPlayers masterId = Except.ok ())
    (hva : validateMediaPlayersToAdd st.mediaPlayers masterId ids = Except.ok ()) :
    addSpeakersToGroup st masterId ids =
      ({ st with groupingSpeakersToAdd :=
          st.groupingSpeakersToAdd ++ ids }, none) := by
  unfold addSpeakersToGroup
  rw [hip]
  simp only [Bool.false_eq_true, if_false]
  rw [hvm, hva]
  dsimp only
  rw [hgm]
  dsimp only
  rw [if_neg (by intro hne; exact hne rfl)]
  unfold armSettleTimer
  dsimp only
  rw [ht]
  rw [if_pos rfl]

/-- The commit phase on a well-formed pending operation: exactly one
physical group call, with `slavesBefore` the master`s resolved members
minus the master itself and
`slavesAfter = (slavesBefore − toRemove) ∪ toAdd`. -/
theorem asyncGroup_commit {st : CoordState} {M : String} {pM : Player}
    {slaves : List String}
    (hip : st.groupingInProgress = false)
    (hgm : st.groupingMaster = some M)
    (hpM : getMediaPlayer st.mediaPlayers M = some pM)
    (hres : groupMembers st.mediaPlayers pM = some (M :: slaves) ∨
      (groupMembers st.mediaPlayers pM = none ∧ slaves = []))
    (hadd : ∀ x ∈ st.groupingSpeakersToAdd,
      (getMediaPlayer st.mediaPlayers x).isSome) :
    asyncGroupMediaPlayers st =
      (resetGrouping { st with groupingInProgress := true },
       [⟨M, slaves,
         (slaves.toFinset \ st.groupingSpeakersToRemove.toFinset)
           ∪ st.groupingSpeakersToAdd.toFinset⟩],
       none) := by
  have hslavesReg : ∀ x ∈ slaves, (getMediaPlayer st.mediaPlayers x).isSome := by
    rcases hres with hres | ⟨-, hres⟩
    · intro x hx
      rcases groupMembers_mem_registered hres x
        (List.mem_cons_of_mem M hx) with hxe | hxr
      · rw [hxe, getMediaPlayer_entityId hpM, hpM]; rfl
      · exact hxr
    · rw [hres]; intro x hx; cases hx
  unfold asyncGroupMediaPlayers
  rw [hip]
  simp only [Bool.false_eq_true, if_false]
  unfold groupWamSpeakers
  dsimp only
  rw [hgm]
  dsimp only
  rw [hpM]
  dsimp only
  have hbefore : (match groupMembers st.mediaPlayers pM with
      | some l => l.drop 1
      | none => []) = slaves := by
    rcases hres with hres | ⟨hres, hnil⟩
    · rw [hres]; rfl
    · rw [hres, hnil]
  rw [hbefore]
  rw [lookupAll_ok hslavesReg]
  dsimp only
  rw [if_pos ?hall]
  case hall =>
    intro x hx
    rcases Finset.mem_union.mp hx with hx | hx
    · exact hslavesReg x (List.mem_toFinset.mp (Finset.mem_sdiff.mp hx).1)
    · exact hadd x (List.mem_toFinset.mp hx)

theorem add_of_validateMaster_err {st : CoordState} {masterId : String}
    {ids : List String} {e : WamError} (hip : st.groupingInProgress = false)
    (hvm : validateMaster st.mediaPlayers masterId = Except.error e) :
    addSpeakersToGroup st masterId ids = (st, some e) := by
  unfold addSpeakersToGroup
  rw [hip]
  simp only [Bool.false_eq_true, if_false]
  rw [hvm]

theorem add_of_validateAdd_err {st : CoordState} {masterId : String}
    {ids : List String} {e : WamError} (hip : st.groupingInProgress = false)
    (hvm : validateMaster st.mediaPlayers masterId = Except.ok ())
    (hva : validateMediaPlayersToAdd st.mediaPlayers masterId ids =
      Except.error e) :
    addSpeakersToGroup st masterId ids = (st, some e) := by
  unfold addSpeakersToGroup
  rw [hip]
  simp only [Bool.false_eq_true, if_false]
  rw [hvm, hva]

theorem add_of_masterMismatch {st : CoordState} {masterId m : String}
    {ids : List String} (hip : st.groupingInProgress = false)
    (hvm : validateMaster st.mediaPlayers masterId = Except.ok ())
    (hva : validateMediaPlayersToAdd st.mediaPlayers masterId ids =
      Except.ok ())
    (hgm : st.groupingMaster = some m) (hne : m ≠ masterId) :
    addSpeakersToGroup st masterId ids =
      (st, some WamError.wamGroupError) := by
  unfold addSpeakersToGroup
  rw [hip]
  simp only [Bool.false_eq_true, if_false]
  rw [hvm, hva]
  dsimp only
  rw [hgm]
  dsimp only
  rw [if_pos hne]

theorem remove_of_validateMaster_err {st : CoordState} {masterId mp : String}
    {e : WamError} (hip : st.groupingInProgress = false)
    (hvm : validateMaster st.mediaPlayers masterId = Except.error e) :
    removeSpeakerFromGroup st masterId mp = (st, some e) := by
  unfold removeSpeakerFromGroup
  rw [hip]
  simp only [Bool.false_eq_true, if_false]
  rw [hvm]

theorem remove_of_validateRemove_err {st : CoordState} {masterId mp : String}
    {e : WamError} (hip : st.groupingInProgress = false)
    (hvm : validateMaster st.mediaPlayers masterId = Except.ok ())
    (hvr : validateMediaPlayerToRemove st.mediaPlayers masterId mp =
      Except.error e) :
    removeSpeakerFromGroup st masterId mp = (st, some e) := by
  unfold removeSpeakerFromGroup
  rw [hip]
  simp only [Bool.false_eq_true, if_false]
  rw [hvm, hvr]

theorem remove_of_masterMismatch {st : CoordState} {masterId mp m : String}
    (hip : st.groupingInProgress = false)
    (hvm : validateMaster st.mediaPlayers masterId = Except.ok ())
    (hvr : validateMediaPlayerToRemove st.mediaPlayers masterId mp =
      Except.ok ())
    (hgm : st.groupingMaster = some m) (hne : m ≠ masterId) :
    removeSpeakerFromGroup st masterId mp =
      (st, some WamError.wamGroupError) := by
  unfold removeSpeakerFromGroup
  rw [hip]
  simp only [Bool.false_eq_true, if_false]
  rw [hvm, hvr]
  dsimp only
  rw [hgm]
  dsimp only
  rw [if_pos hne]

/-! ### Lemmas about the reconnect loop, deletion, and the slave fold -/

theorem reconnectLoop_success {dev : DeviceState} {script : List Bool} :
    ∀ (attempts : Nat), true ∈ script →
    ∃ evs0, reconnectLoop dev attempts script =
      some ({ dev with connected := true, reconnecting := false },
        evs0 ++ updateAllEntityStates dev) ∧
      ∀ e ∈ evs0, ∃ k, e = DeviceEvent.sleep k := by
  induction script with
  | nil => intro _ h; cases h
  | cons b rest ih =>
    intro attempts h
    by_cases hb : b = true
    · subst hb
      exact ⟨[], rfl, fun e he => absurd he (List.not_mem_nil e)⟩
    · have hb' : b = false := Bool.eq_false_iff.mpr hb
      subst hb'
      have hmem : true ∈ rest := by
        rcases List.mem_cons.mp h with h | h
        · cases h
        · exact h
      obtain ⟨evs0, heq, hsl⟩ := ih (attempts + 1) hmem
      refine ⟨DeviceEvent.sleep (reconnectWaitTime (attempts + 1)) :: evs0,
        ?_, ?_⟩
      · unfold reconnectLoop
        simp only [Bool.false_eq_true, if_false]
        rw [heq]
        rfl
      · intro e he
        rcases List.mem_cons.mp he with he | he
        · exact ⟨reconnectWaitTime (attempts + 1), he⟩
        · exact hsl e he

theorem getMediaPlayer_eq_none {players : List Player} {e : String}
    (h : ∀ p ∈ players, p.entity_id ≠ e) : getMediaPlayer players e = none := by
  unfold getMediaPlayer
  rw [List.find?_eq_none]
  intro p hp
  simp only [beq_eq_false_iff_ne, ne_eq, beq_iff_eq]
  exact h p hp

theorem eraseFirstPlayer_not_mem {players : List Player} {e : String}
    (h : ∀ p ∈ players, p.entity_id ≠ e) :
    eraseFirstPlayer players e = players := by
  induction players with
  | nil => rfl
  | cons p rest ih =>
    unfold eraseFirstPlayer
    rw [if_neg (by
      simp only [beq_iff_eq]
      exact h p (List.mem_cons_self p rest))]
    rw [ih (fun q hq => h q (List.mem_cons_of_mem p hq))]

theorem getMediaPlayer_cons (pl : Player) (l : List Player) (k : String) :
    getMediaPlayer (pl :: l) k =
      if pl.entity_id == k then some pl else getMediaPlayer l k := by
  unfold getMediaPlayer
  cases h : pl.entity_id == k <;> simp [List.find?, h]

theorem getMediaPlayer_eraseFirstPlayer_self {players : List Player}
    {e : String} (hnd : (players.map Player.entity_id).Nodup) :
    getMediaPlayer (eraseFirstPlayer players e) e = none := by
  induction players with
  | nil => rfl
  | cons p rest ih =>
    simp only [List.map_cons, List.nodup_cons] at hnd
    unfold eraseFirstPlayer
    by_cases hpe : (p.entity_id == e) = true
    · rw [if_pos hpe]
      refine getMediaPlayer_eq_none ?_
      intro q hq hqe
      have : p.entity_id ∈ rest.map Player.entity_id := by
        rw [beq_iff_eq.mp hpe, ← hqe]
        exact List.mem_map_of_mem Player.entity_id hq
      exact hnd.1 this
    · rw [if_neg hpe, getMediaPlayer_cons, if_neg hpe]
      exact ih hnd.2

theorem getMediaPlayer_eraseFirstPlayer_other (players : List Player)
    {e j : String} (hne : j ≠ e) :
    getMediaPlayer (eraseFirstPlayer players e) j =
      getMediaPlayer players j := by
  induction players with
  | nil => rfl
  | cons p rest ih =>
    unfold eraseFirstPlayer
    by_cases hpe : (p.entity_id == e) = true
    · rw [if_pos hpe]
      have hpj : ¬ (p.entity_id == j) = true := by
        intro hc
        exact hne ((beq_iff_eq.mp hc).symm.trans (beq_iff_eq.mp hpe) ▸ rfl)
      rw [getMediaPlayer_cons, if_neg hpj]
    · rw [if_neg hpe, getMediaPlayer_cons, getMediaPlayer_cons]
      by_cases hpj : (p.entity_id == j) = true
      · rw [if_pos hpj, if_pos hpj]
      · rw [if_neg hpj, if_neg hpj]
        exact ih

theorem slaveFold_no_match {mip : Option String} :
    ∀ (l : List Player) (acc : List String),
      (∀ q ∈ l, ¬ ((some q.ip) == mip) = true) →
      ∃ extra, l.foldl (fun acc p =>
          if (some p.ip) == mip then p.entity_id :: acc
          else if p.attr.master_ip == mip then acc ++ [p.entity_id]
          else acc) acc = acc ++ extra := by
  intro l
  induction l with
  | nil =>
    intro acc _
    exact ⟨[], (List.append_nil acc).symm⟩
  | cons q rest ih =>
    intro acc h
    have hq := h q (List.mem_cons_self q rest)
    have hrest := fun r hr => h r (List.mem_cons_of_mem q hr)
    simp only [List.foldl_cons]
    rw [if_neg hq]
    by_cases h2 : (q.attr.master_ip == mip) = true
    · rw [if_pos h2]
      obtain ⟨extra, hex⟩ := ih (acc ++ [q.entity_id]) hrest
      exact ⟨[q.entity_id] ++ extra, by rw [hex, List.append_assoc]⟩
    · rw [if_neg h2]
      exact ih acc hrest

theorem slaveFold_one_match {mip : Option String} {m : Player}
    (hm : ((some m.ip) == mip) = true) (l1 l2 : List Player)
    (acc : List String)
    (h1 : ∀ q ∈ l1, ¬ ((some q.ip) == mip) = true)
    (h2 : ∀ q ∈ l2, ¬ ((some q.ip) == mip) = true) :
    ∃ t, (l1 ++ m :: l2).foldl (fun acc p =>
        if (some p.ip) == mip then p.entity_id :: acc
        else if p.attr.master_ip == mip then acc ++ [p.entity_id]
        else acc) acc = m.entity_id :: t := by
  rw [List.foldl_append]
  simp only [List.foldl_cons]
  rw [if_pos hm]
  obtain ⟨extra, hex⟩ := slaveFold_no_match l2 (m.entity_id :: List.foldl _ acc l1) h2
  exact ⟨List.foldl _ acc l1 ++ extra, by rw [hex]; rfl⟩

/-! ### Claims -/

/-- C1 (counterexample): with a grouping operation in progress
(`exBusyState.groupingInProgress = true`), `add_speakers_to_group` and
`remove_speaker_from_group` return silently — no `WamGroupError` is
raised, contradicting the claim that such calls always fail with
`GroupingError`. -/
theorem inProgress_add_raises_no_error :
    addSpeakersToGroup exBusyState "m" ["s2"] = (exBusyState, none) ∧
    removeSpeakerFromGroup exBusyState "m" "s1" = (exBusyState, none) ∧
    (addSpeakersToGroup exBusyState "m" ["s2"]).2 ≠
      some WamError.wamGroupError := by
  refine ⟨rfl, rfl, by decide⟩

/-- C1 (amended): every `add_speakers_to_group` or
`remove_speaker_from_group` call made while a grouping operation is in
progress returns without raising any error and leaves the whole
coordinator state (in particular the pending to-add/to-remove lists)
unchanged. -/
theorem inProgress_requests_silently_ignored
    (st : CoordState) (masterId mp : String) (ids : List String)
    (hip : st.groupingInProgress = true) :
    addSpeakersToGroup st masterId ids = (st, none) ∧
      removeSpeakerFromGroup st masterId mp = (st, none) := by
  constructor
  · unfold addSpeakersToGroup
    rw [hip, if_pos rfl]
  · unfold removeSpeakerFromGroup
    rw [hip, if_pos rfl]

/-- Witness for the amended C1 at a concrete busy state. -/
theorem inProgress_requests_silently_ignored_witness :
    addSpeakersToGroup exBusyState "m" ["s3"] = (exBusyState, none) ∧
      removeSpeakerFromGroup exBusyState "m" "nope" = (exBusyState, none) :=
  inProgress_requests_silently_ignored exBusyState "m" "nope" ["s3"] rfl

/-- C2: when the settle timer fires on a pending operation with master
`M` whose resolved members are `M :: slaves` (or none, in which case
`slaves = []`), the coordinator issues exactly one physical group call
carrying `slavesBefore = slaves` and
`slavesAfter = (slaves − toRemove) ∪ toAdd`, and returns no error. -/
theorem commit_single_physical_call {st : CoordState} {M : String}
    {pM : Player} {slaves : List String}
    (hip : st.groupingInProgress = false)
    (hgm : st.groupingMaster = some M)
    (hpM : getMediaPlayer st.mediaPlayers M = some pM)
    (hres : groupMembers st.mediaPlayers pM = some (M :: slaves) ∨
      (groupMembers st.mediaPlayers pM = none ∧ slaves = []))
    (hadd : ∀ x ∈ st.groupingSpeakersToAdd,
      (getMediaPlayer st.mediaPlayers x).isSome) :
    asyncGroupMediaPlayers st =
      (resetGrouping { st with groupingInProgress := true },
       [⟨M, slaves,
         (slaves.toFinset \ st.groupingSpeakersToRemove.toFinset)
           ∪ st.groupingSpeakersToAdd.toFinset⟩],
       none) :=
  asyncGroup_commit hip hgm hpM hres hadd

/-- Witness for C2: committing the pending operation of
`exPendingState` (master `m`, add `s2`, remove `s1`) issues one call
with `slavesBefore = [s1]` and `slavesAfter = ({s1} − {s1}) ∪ {s2}`. -/
theorem commit_single_physical_call_witness :
    asyncGroupMediaPlayers exPendingState =
      (resetGrouping { exPendingState with groupingInProgress := true },
       [⟨"m", ["s1"],
         (["s1"].toFinset \ ["s1"].toFinset) ∪ ["s2"].toFinset⟩],
       none) :=
  commit_single_physical_call rfl rfl rfl (Or.inl rfl) (by decide)

/-- C4 (counterexample): a request whose member list contains the
registered master `m` (with `is_master = true`), issued while a commit
is in progress, returns silently instead of failing with
`WamGroupError`. -/
theorem add_member_already_master_inProgress_no_error :
    getMediaPlayer exBusyState.mediaPlayers "m" = some exMaster ∧
    exMaster.attr.is_master = true ∧
    addSpeakersToGroup exBusyState "m" ["m"] = (exBusyState, none) :=
  ⟨rfl, rfl, rfl⟩

/-- C4 (amended): when no grouping operation is in progress and the
master id names a registered player, every `add_speakers_to_group`
request whose member list contains a registered device that is already
a master fails with `WamGroupError` and performs no mutation: the
returned state is the input state, so pending sets, pending master and
timer state are unchanged and no physical call is made. -/
theorem add_member_already_master_fails (st : CoordState)
    (masterId x : String) (ids : List String) (px : Player)
    (hip : st.groupingInProgress = false)
    (hm : (getMediaPlayer st.mediaPlayers masterId).isSome)
    (hx : x ∈ ids) (hgx : getMediaPlayer st.mediaPlayers x = some px)
    (hmst : px.attr.is_master = true) :
    addSpeakersToGroup st masterId ids =
      (st, some WamError.wamGroupError) := by
  rcases validateMaster_ok_or_group hm with hvm | hvm
  · obtain ⟨mp, hmp⟩ := Option.isSome_iff_exists.mp hm
    have hva : validateMediaPlayersToAdd st.mediaPlayers masterId ids =
        Except.error WamError.wamGroupError := by
      unfold validateMediaPlayersToAdd
      rw [hmp]
      exact validateAddList_master_err hx hgx hmst
    exact add_of_validateAdd_err hip hvm hva
  · exact add_of_validateMaster_err hip hvm

/-- Witness for the amended C4: asking to group the master `m` under
the ungrouped `s3` fails with `WamGroupError` and mutates nothing. -/
theorem add_member_already_master_fails_witness :
    addSpeakersToGroup exIdleState "s3" ["m"] =
      (exIdleState, some WamError.wamGroupError) :=
  add_member_already_master_fails exIdleState "s3" "m" ["m"] exMaster
    rfl (by decide) (by decide) rfl rfl

/-- C6: for every attempt number `n ≥ 1` the reconnect backoff delay is
`10 × 2^min(n, 6)` seconds, the delays are non-decreasing in `n`, they
follow the documented sequence 20, 40, 80, 160, 320, 640, and they are
capped at 640 seconds. -/
theorem reconnect_backoff_formula (n : Nat) (h : 1 ≤ n) :
    reconnectWaitTime n = 10 * 2 ^ (min n 6) ∧
    reconnectWaitTime n ≤ reconnectWaitTime (n + 1) ∧
    reconnectWaitTime n ≤ 640 ∧
    (n ≤ 6 → reconnectWaitTime n = 10 * 2 ^ n) ∧
    (6 ≤ n → reconnectWaitTime n = 640) := by
  refine ⟨by rw [reconnectWaitTime, Nat.mul_comm], ?_, ?_, ?_, ?_⟩
  · unfold reconnectWaitTime
    have hmin : min n 6 ≤ min (n + 1) 6 := by omega
    exact Nat.mul_le_mul_right 10
      (Nat.pow_le_pow_right (by omega) hmin)
  · unfold reconnectWaitTime
    have h1 : min n 6 ≤ 6 := Nat.min_le_right n 6
    have h2 : 2 ^ (min n 6) ≤ 2 ^ 6 :=
      Nat.pow_le_pow_right (by omega) h1
    calc 2 ^ (min n 6) * 10 ≤ 2 ^ 6 * 10 := Nat.mul_le_mul_right 10 h2
    _ = 640 := by norm_num
  · intro h6
    unfold reconnectWaitTime
    rw [Nat.min_eq_left h6, Nat.mul_comm]
  · intro h6
    unfold reconnectWaitTime
    rw [Nat.min_eq_right h6]
    norm_num

/-- Witness for C6 at `n = 3`. -/
theorem reconnect_backoff_formula_witness :
    reconnectWaitTime 3 = 10 * 2 ^ (min 3 6) ∧
    reconnectWaitTime 3 ≤ reconnectWaitTime 4 ∧
    reconnectWaitTime 3 ≤ 640 ∧
    (3 ≤ 6 → reconnectWaitTime 3 = 10 * 2 ^ 3) ∧
    (6 ≤ 3 → reconnectWaitTime 3 = 640) :=
  reconnect_backoff_formula 3 (by decide)

/-- C8 (counterexample): an error that is neither a connection error
nor a timeout is swallowed by the `async_check_connection` wrapper: no
exception reaches the caller (and no connection check runs), so "other
errors are surfaced to the caller" does not hold. -/
theorem check_connection_other_error_swallowed :
    asyncCheckConnection false CommandOutcome.otherError =
      ⟨false, false, false⟩ ∧
    (asyncCheckConnection false CommandOutcome.otherError).raisedToCaller
      = false :=
  ⟨rfl, rfl⟩

/-- C8 (amended): under the per-call policy, a `ConnectionError` always
triggers the connection check; an `ApiCallTimeoutError` triggers it iff
the call site selected `timeout = true`; every other error is logged
and swallowed (no response, no connection check, and no exception
propagates to the caller). -/
theorem check_connection_error_policy (timeout : Bool) :
    asyncCheckConnection timeout CommandOutcome.connectionError =
      ⟨false, true, false⟩ ∧
    asyncCheckConnection timeout CommandOutcome.apiCallTimeoutError =
      ⟨false, timeout, false⟩ ∧
    asyncCheckConnection timeout CommandOutcome.otherError =
      ⟨false, false, false⟩ ∧
    asyncCheckConnection timeout CommandOutcome.ok =
      ⟨true, false, false⟩ ∧
    ((asyncCheckConnection timeout
        CommandOutcome.apiCallTimeoutError).checkedConnection = true ↔
      timeout = true) :=
  ⟨rfl, rfl, rfl, rfl, Iff.rfl⟩

/-- C10: `delete_media_player` never raises: deleting an unregistered
id leaves the directory unchanged, and deleting a registered id removes
exactly that entry while every other id still resolves as before. -/
theorem delete_media_player_safe (st : CoordState) (entityId : String)
    (hnd : (st.mediaPlayers.map Player.entity_id).Nodup) :
    ((∀ p ∈ st.mediaPlayers, p.entity_id ≠ entityId) →
      deleteMediaPlayer st entityId = st) ∧
    getMediaPlayer (deleteMediaPlayer st entityId).mediaPlayers entityId
      = none ∧
    (∀ j, j ≠ entityId →
      getMediaPlayer (deleteMediaPlayer st entityId).mediaPlayers j =
        getMediaPlayer st.mediaPlayers j) := by
  refine ⟨?_, ?_, ?_⟩
  · intro h
    unfold deleteMediaPlayer
    rw [eraseFirstPlayer_not_mem h]
  · exact getMediaPlayer_eraseFirstPlayer_self hnd
  · intro j hj
    exact getMediaPlayer_eraseFirstPlayer_other st.mediaPlayers hj

/-- Witness for C10: deleting an unknown id is a no-op; deleting `s2`
removes it and leaves `m` resolvable. -/
theorem delete_media_player_safe_witness :
    deleteMediaPlayer exIdleState "zz" = exIdleState ∧
    getMediaPlayer (deleteMediaPlayer exIdleState "s2").mediaPlayers "s2"
      = none ∧
    getMediaPlayer (deleteMediaPlayer exIdleState "s2").mediaPlayers "m"
      = getMediaPlayer exIdleState.mediaPlayers "m" := by
  have h1 := delete_media_player_safe exIdleState "zz" (by decide)
  have h2 := delete_media_player_safe exIdleState "s2" (by decide)
  exact ⟨h1.1 (by decide), h2.2.1, h2.2.2 "m" (by decide)⟩

/-- C3: two valid `add_speakers_to_group` requests for the same master
issued before the settle timer fires arm exactly one timer (the second
request only extends the pending set) and the subsequent commit issues
exactly one physical group call whose `slavesAfter` contains both
requested members. -/
theorem rapid_adds_single_physical_call
    (st0 st1 st2 : CoordState) (M A B : String)
    (h0gm : st0.groupingMaster = none)
    (h0add : st0.groupingSpeakersToAdd = [])
    (h0t : st0.groupingCallLaterCancel = false)
    (h0ip : st0.groupingInProgress = false)
    (h0arm : st0.timerArms = 0)
    (h1 : addSpeakersToGroup st0 M [A] = (st1, none))
    (h2 : addSpeakersToGroup st1 M [B] = (st2, none)) :
    st1.timerArms = 1 ∧ st2.timerArms = 1 ∧
    ∃ c, (asyncGroupMediaPlayers st2).2.1 = [c] ∧
      A ∈ c.slavesAfter ∧ B ∈ c.slavesAfter := by
  obtain ⟨hvm1, hva1⟩ := add_ok_validations h0ip h1
  have h1' := add_first h0ip h0gm h0t hvm1 hva1
  rw [h1] at h1'
  injection h1' with hst1 hnone1
  have hip1 : st1.groupingInProgress = false := by
    rw [hst1]
    exact h0ip
  have hgm1 : st1.groupingMaster = some M := by
    rw [hst1]
  have ht1 : st1.groupingCallLaterCancel = true := by
    rw [hst1]
  have hmedia1 : st1.mediaPlayers = st0.mediaPlayers := by
    rw [hst1]
  have harm1 : st1.timerArms = st0.timerArms + 1 := by
    rw [hst1]
  have htoadd1 : st1.groupingSpeakersToAdd =
      st0.groupingSpeakersToAdd ++ [A] := by
    rw [hst1]
  obtain ⟨hvm2, hva2⟩ := add_ok_validations hip1 h2
  rw [hmedia1] at hvm2 hva2
  have h2' := add_second hip1 hgm1 ht1 (by rw [hmedia1]; exact hvm2)
    (by rw [hmedia1]; exact hva2)
  rw [h2] at h2'
  injection h2' with hst2 hnone2
  have hip2 : st2.groupingInProgress = false := by
    rw [hst2]
    exact hip1
  have hgm2 : st2.groupingMaster = some M := by
    rw [hst2]
    exact hgm1
  have hmedia2 : st2.mediaPlayers = st0.mediaPlayers := by
    rw [hst2]
    exact hmedia1
  have harm2 : st2.timerArms = st0.timerArms + 1 := by
    rw [hst2]
    exact harm1
  have htoadd2 : st2.groupingSpeakersToAdd =
      (st0.groupingSpeakersToAdd ++ [A]) ++ [B] := by
    rw [hst2]
    dsimp only
    rw [htoadd1]
  obtain ⟨pM, hpM, -, hshape⟩ := validateMaster_ok_shape hvm1
  have hA : (getMediaPlayer st0.mediaPlayers A).isSome := by
    have hva1' := hva1
    unfold validateMediaPlayersToAdd at hva1'
    rw [hpM] at hva1'
    dsimp only at hva1'
    exact validateAddList_ok_mem hva1' A (List.mem_singleton.mpr rfl)
  have hB : (getMediaPlayer st0.mediaPlayers B).isSome := by
    have hva2' := hva2
    unfold validateMediaPlayersToAdd at hva2'
    rw [hpM] at hva2'
    dsimp only at hva2'
    exact validateAddList_ok_mem hva2' B (List.mem_singleton.mpr rfl)
  have hadd2 : ∀ x ∈ st2.groupingSpeakersToAdd,
      (getMediaPlayer st2.mediaPlayers x).isSome := by
    rw [hmedia2, htoadd2]
    intro x hx
    rcases List.mem_append.mp hx with hx | hx
    · rcases List.mem_append.mp hx with hx | hx
      · rw [h0add] at hx
        cases hx
      · rw [List.mem_singleton.mp hx]
        exact hA
    · rw [List.mem_singleton.mp hx]
      exact hB
  refine ⟨?_, ?_, ?_⟩
  · rw [harm1, h0arm]
  · rw [harm2, h0arm]
  · have hpM2 : getMediaPlayer st2.mediaPlayers M = some pM := by
      rw [hmedia2]
      exact hpM
    have main : ∀ slaves : List String,
        (groupMembers st2.mediaPlayers pM = some (M :: slaves) ∨
          (groupMembers st2.mediaPlayers pM = none ∧ slaves = [])) →
        ∃ c, (asyncGroupMediaPlayers st2).2.1 = [c] ∧
          A ∈ c.slavesAfter ∧ B ∈ c.slavesAfter := by
      intro slaves hres
      have hcm := asyncGroup_commit hip2 hgm2 hpM2 hres hadd2
      refine ⟨_, by rw [hcm], ?_, ?_⟩
      · refine Finset.mem_union_right _ (List.mem_toFinset.mpr ?_)
        rw [htoadd2]
        exact List.mem_append_left _ (List.mem_append_right _
          (List.mem_singleton.mpr rfl))
      · refine Finset.mem_union_right _ (List.mem_toFinset.mpr ?_)
        rw [htoadd2]
        exact List.mem_append_right _ (List.mem_singleton.mpr rfl)
    rcases hshape with hnone | ⟨t, hsome⟩
    · refine main [] (Or.inr ⟨?_, rfl⟩)
      rw [hmedia2]
      exact hnone
    · refine main t (Or.inl ?_)
      rw [hmedia2]
      exact hsome

/-- Witness for C3 on the concrete idle directory: add `s2`, then `s3`,
to master `m`; one timer is armed and one commit call contains both. -/
theorem rapid_adds_single_physical_call_witness :
    ∃ c, (asyncGroupMediaPlayers
      (addSpeakersToGroup
        (addSpeakersToGroup exIdleState "m" ["s2"]).1 "m" ["s3"]).1).2.1
      = [c] ∧ "s2" ∈ c.slavesAfter ∧ "s3" ∈ c.slavesAfter := by
  have h := rapid_adds_single_physical_call exIdleState
    (addSpeakersToGroup exIdleState "m" ["s2"]).1
    (addSpeakersToGroup
      (addSpeakersToGroup exIdleState "m" ["s2"]).1 "m" ["s3"]).1
    "m" "s2" "s3" rfl rfl rfl rfl rfl (by decide) (by decide)
  exact h.2.2

/-- C5 (counterexample): `exLoneSlave` participates in a group
(`is_slave = true`), but its resolved member list is `["s"]`, whose
first element is `exLoneSlave` itself — not a master: no registered
player has the master`s ip `ipx`, so the claim that the resolved list
always starts with the master id fails. -/
theorem group_members_slave_head_not_master :
    groupMembers exLoneState.mediaPlayers exLoneSlave = some ["s"] ∧
    exLoneSlave.attr.is_slave = true ∧
    getMediaPlayer exLoneState.mediaPlayers "s" = some exLoneSlave ∧
    exLoneSlave.attr.is_master = false ∧
    exLoneSlave.attr.master_ip = some "ipx" ∧
    exLoneSlave.ip ≠ "ipx" :=
  ⟨rfl, rfl, rfl, rfl, rfl, by decide⟩

/-- C5 (amended): `group_members` is a pure query: it returns `none`
iff the device is ungrouped (neither master nor slave); a master`s own
query returns itself first; a slave`s query returns the master`s id
first provided exactly one available registered player carries the
master`s ip; and two calls with no intervening mutation are identical. -/
theorem group_members_pure_query (players : List Player) (p : Player) :
    (groupMembers players p = none ↔
      (p.attr.is_master = false ∧ p.attr.is_slave = false)) ∧
    (p.attr.is_master = true →
      ∃ t, groupMembers players p = some (p.entity_id :: t)) ∧
    (∀ mip (m : Player) (l1 l2 : List Player),
      p.attr.is_master = false → p.attr.is_slave = true →
      p.attr.master_ip = some mip →
      getAllAvailableMediaPlayers players = l1 ++ m :: l2 →
      m.ip = mip →
      (∀ q ∈ l1, q.ip ≠ mip) → (∀ q ∈ l2, q.ip ≠ mip) →
      ∃ t, groupMembers players p = some (m.entity_id :: t)) ∧
    groupMembers players p = groupMembers players p := by
  refine ⟨groupMembers_eq_none_iff players p, ?_, ?_, rfl⟩
  · intro hm
    exact ⟨_, groupMembers_master hm⟩
  · intro mip m l1 l2 hm hs hmip hdecomp hmih hl1 hl2
    rw [groupMembers_slave hm hs, hdecomp, hmip]
    have hmm : ((some m.ip) == some mip) = true := by
      simp [hmih]
    have conv1 : ∀ q ∈ l1, ¬ ((some q.ip) == some mip) = true := by
      intro q hq hc
      exact hl1 q hq (by simpa using hc)
    have conv2 : ∀ q ∈ l2, ¬ ((some q.ip) == some mip) = true := by
      intro q hq hc
      exact hl2 q hq (by simpa using hc)
    obtain ⟨t, ht⟩ := slaveFold_one_match hmm l1 l2 [] conv1 conv2
    exact ⟨t, by rw [ht]⟩

/-- Witness for the amended C5 on the concrete directory: an ungrouped
player resolves to `none`; the master`s query puts `m` first; the
slave`s query puts the master `m` first. -/
theorem group_members_pure_query_witness :
    groupMembers exIdleState.mediaPlayers exFree2 = none ∧
    (∃ t, groupMembers exIdleState.mediaPlayers exMaster =
      some ("m" :: t)) ∧
    (∃ t, groupMembers exIdleState.mediaPlayers exSlave1 =
      some ("m" :: t)) := by
  have h2 := group_members_pure_query exIdleState.mediaPlayers exFree2
  have hm := group_members_pure_query exIdleState.mediaPlayers exMaster
  have hs := group_members_pure_query exIdleState.mediaPlayers exSlave1
  exact ⟨h2.1.mpr (by decide), hm.2.1 rfl,
    hs.2.2.1 "ipm" exMaster [] [exSlave1, exFree2, exFree3]
      rfl rfl rfl rfl rfl (by decide) (by decide)⟩

/-- C7: whenever the reconnect loop eventually sees a successful
attempt, it terminates with the reconnecting flag cleared and the
device connected, and every registered subscriber callback receives
exactly one `force_update` notification in that dispatch (and
unregistered ids receive none). -/
theorem reconnect_success_notifies_each_subscriber_once
    (dev : DeviceState) (script : List Bool)
    (hnd : dev.updateCallbacks.Nodup) (hsucc : true ∈ script) :
    ∃ d evs, reconnectUntilConnected dev script = some (d, evs) ∧
      d.reconnecting = false ∧ d.connected = true ∧
      (∀ s ∈ dev.updateCallbacks,
        evs.count (DeviceEvent.forceUpdate s) = 1) ∧
      (∀ s, s ∉ dev.updateCallbacks →
        evs.count (DeviceEvent.forceUpdate s) = 0) := by
  obtain ⟨evs0, heq, hsl⟩ :=
    @reconnectLoop_success { dev with reconnecting := true } script 0 hsucc
  have hzero : ∀ s, List.count (DeviceEvent.forceUpdate s) evs0 = 0 := by
    intro s
    rw [List.count_eq_zero]
    intro hmem
    obtain ⟨k, hk⟩ := hsl _ hmem
    cases hk
  have hinj : Function.Injective DeviceEvent.forceUpdate := by
    intro a b hab
    injection hab
  have hupd : updateAllEntityStates { dev with reconnecting := true } =
      List.map DeviceEvent.forceUpdate dev.updateCallbacks := rfl
  refine ⟨_, _, heq, rfl, rfl, ?_, ?_⟩
  · intro s hs
    rw [hupd, List.count_append, hzero s,
      List.count_map_of_injective _ DeviceEvent.forceUpdate hinj,
      Nat.zero_add]
    exact List.count_eq_one_of_mem hnd hs
  · intro s hs
    rw [hupd, List.count_append, hzero s,
      List.count_map_of_injective _ DeviceEvent.forceUpdate hinj,
      Nat.zero_add]
    exact List.count_eq_zero_of_not_mem hs

/-- Witness for C7: two subscribers, success on the second attempt. -/
theorem reconnect_success_notifies_each_subscriber_once_witness :
    ∃ d evs, reconnectUntilConnected exDevice [false, true] =
        some (d, evs) ∧
      d.reconnecting = false ∧ d.connected = true ∧
      (∀ s ∈ exDevice.updateCallbacks,
        evs.count (DeviceEvent.forceUpdate s) = 1) ∧
      (∀ s, s ∉ exDevice.updateCallbacks →
        evs.count (DeviceEvent.forceUpdate s) = 0) :=
  reconnect_success_notifies_each_subscriber_once exDevice [false, true]
    (by decide) (by decide)

/-- C9 (counterexample): a request naming an unregistered master id
while a pending operation with a different master exists raises
`KeyError` (from the dict lookup), not `WamGroupError`. -/
theorem request_with_unregistered_master_keyerror :
    exPendingState.groupingMaster = some "m" ∧
    exPendingState.groupingInProgress = false ∧
    addSpeakersToGroup exPendingState "zz" ["s2"] =
      (exPendingState, some WamError.keyError) ∧
    some WamError.keyError ≠ some WamError.wamGroupError :=
  ⟨rfl, rfl, rfl, by decide⟩

/-- C9 (amended): a request made while a pending operation with a
different master exists (inProgress still false) raises `WamGroupError`
and leaves the whole state — pending master, pending sets, timer —
unchanged, provided the named master is registered (and, for removes,
the member id is registered and the master resolves to a group). -/
theorem request_with_different_pending_master_fails
    (st : CoordState) (m masterId mpId : String) (ids : List String)
    (pM : Player)
    (hip : st.groupingInProgress = false)
    (hgm : st.groupingMaster = some m)
    (hne : m ≠ masterId)
    (hreg : getMediaPlayer st.mediaPlayers masterId = some pM) :
    addSpeakersToGroup st masterId ids =
      (st, some WamError.wamGroupError) ∧
    ((getMediaPlayer st.mediaPlayers mpId).isSome →
      (groupMembers st.mediaPlayers pM).isSome →
      removeSpeakerFromGroup st masterId mpId =
        (st, some WamError.wamGroupError)) := by
  have hm : (getMediaPlayer st.mediaPlayers masterId).isSome := by
    rw [hreg]
    rfl
  constructor
  · rcases validateMaster_ok_or_group hm with hvm | hvm
    · rcases validateAddList_ok_or_group st.mediaPlayers pM ids with
        hva | hva
      · have hva' : validateMediaPlayersToAdd st.mediaPlayers masterId
            ids = Except.ok () := by
          unfold validateMediaPlayersToAdd
          rw [hreg]
          exact hva
        exact add_of_masterMismatch hip hvm hva' hgm hne
      · have hva' : validateMediaPlayersToAdd st.mediaPlayers masterId
            ids = Except.error WamError.wamGroupError := by
          unfold validateMediaPlayersToAdd
          rw [hreg]
          exact hva
        exact add_of_validateAdd_err hip hvm hva'
    · exact add_of_validateMaster_err hip hvm
  · intro hmp hgmem
    rcases validateMaster_ok_or_group hm with hvm | hvm
    · rcases validateRemove_ok_or_group hreg hmp hgmem with hvr | hvr
      · exact remove_of_masterMismatch hip hvm hvr hgm hne
      · exact remove_of_validateRemove_err hip hvm hvr
    · exact remove_of_validateMaster_err hip hvm

/-- Witness for the amended C9: pending master `s2`; naming master `m`
instead fails with `WamGroupError` for both add and remove, and the
state is unchanged. -/
theorem request_with_different_pending_master_fails_witness :
    addSpeakersToGroup exPendingOther "m" ["s1"] =
      (exPendingOther, some WamError.wamGroupError) ∧
    removeSpeakerFromGroup exPendingOther "m" "s1" =
      (exPendingOther, some WamError.wamGroupError) := by
  have h := request_with_different_pending_master_fails
    exPendingOther "s2" "m" "s1" ["s1"] exMaster rfl rfl (by decide) rfl
  exact ⟨h.1, h.2 (by decide) (by decide)⟩

end SamsungWam
